import Mathlib

/-!
# Verification of the ShareSkippy scheduled-email subsystem

Shallow embedding of:

* `scripts/backfill-community-growth-emails.js` — the one-shot backfill job
  (environment checks, catalog lookup, user selection, set-difference
  idempotency, `run_after` computation, chunked insertion);
* the email orchestrator (`libs/email`): only its tests live in the tree, so
  `sendEmail`, `processScheduledEmails` and `processReengageEmails` are
  modelled from the specification;
* `parseCursor` from the profiles listing route;
* the session-storage draft persistence of `hooks/useAvailabilityDraft.js`.

Timestamps are modelled as integer milliseconds since the epoch (the value a
JS `Date` wraps); adding N days is adding `N * 86400000` ms, which matches
`setDate(getDate() + N)` on a UTC clock.  The Supabase store is modelled as a
record of row lists; reads are filters over those lists and inserts append.
-/

namespace ShareSkippy

/-- A catalog row of the `email_catalog` table: `id, description, enabled`. -/
structure CatalogEntry where
  id : String
  description : String
  enabled : Bool
deriving Repr, DecidableEq

/-- A row of `profiles` as the backfill selects it:
`id, email, first_name, created_at` (signup timestamp, ms). -/
structure Profile where
  id : String
  email : Option String
  first_name : String
  created_at : Int
deriving Repr, DecidableEq

/-- A row of `scheduled_emails` as the backfill inserts it:
`user_id, email_type, run_after, payload`. -/
structure ScheduledEmailRow where
  user_id : String
  email_type : String
  run_after : Int
  payload : List (String × String)
deriving Repr, DecidableEq

/-- The slice of the Supabase store the backfill script touches. -/
structure Store where
  email_catalog : List CatalogEntry
  profiles : List Profile
  scheduled_emails : List ScheduledEmailRow
deriving Repr, DecidableEq

/-- Environment of the script: `DRY_RUN`, `SUPABASE_URL`,
`SUPABASE_SERVICE_ROLE_KEY` (the latter two may be absent). -/
structure BackfillEnv where
  dryRun : Bool
  supabaseUrl : Option String
  serviceRoleKey : Option String
deriving Repr, DecidableEq

/-- `FEATURE_RELEASE_DATE = '2026-01-22T00:00:00Z'` in epoch milliseconds. -/
def FEATURE_RELEASE_DATE : Int := 1769040000000

/-- `EMAIL_TYPE = 'community_growth_day135'`. -/
def EMAIL_TYPE : String := "community_growth_day135"

/-- `DAYS_AFTER_SIGNUP = 135`. -/
def DAYS_AFTER_SIGNUP : Int := 135

/-- One day in milliseconds. -/
def MS_PER_DAY : Int := 86400000

/-- `BATCH_SIZE = 100` of the step-6 insert loop. -/
def BATCH_SIZE : Nat := 100

/-- Exit points of the script (each `process.exit` call site plus normal
completion of the live insert loop). -/
inductive BackfillExit where
  | missingEnv
  | catalogNotFound
  | noUsers
  | allScheduled
  | dryRunDone
  | liveDone
deriving Repr, DecidableEq

/-- What one run of the script yields: where it exited, the store afterwards,
the prepared records (`emailsToInsert`), the immediate/future report split and
the live-mode insert/error tallies. -/
structure BackfillResult where
  exit : BackfillExit
  store : Store
  prepared : List ScheduledEmailRow
  immediateCount : Nat
  futureCount : Nat
  insertedCount : Nat
  errorCount : Nat
deriving Repr, DecidableEq

namespace Backfill

/-- Step 2: `profiles` with `created_at < FEATURE_RELEASE_DATE`. -/
def existingUsers (store : Store) : List Profile :=
  store.profiles.filter (fun u => u.created_at < FEATURE_RELEASE_DATE)

/-- `userIds = existingUsers.map(u => u.id)`. -/
def userIds (store : Store) : List String :=
  (existingUsers store).map (·.id)

/-- Step 3: user ids that already have a `scheduled_emails` row of the target
type (`eq('email_type', EMAIL_TYPE).in('user_id', userIds)`). -/
def alreadyScheduledUserIds (store : Store) : List String :=
  (store.scheduled_emails.filter
    (fun e => e.email_type == EMAIL_TYPE && (userIds store).contains e.user_id)).map
    (·.user_id)

/-- Step 4: the set difference — users with no existing scheduled row. -/
def usersToBackfill (store : Store) : List Profile :=
  (existingUsers store).filter (fun u => !((alreadyScheduledUserIds store).contains u.id))

/-- Step 5, one user: `run_after = signup + DAYS_AFTER_SIGNUP days`,
empty payload. -/
def mkRecord (u : Profile) : ScheduledEmailRow :=
  { user_id := u.id
    email_type := EMAIL_TYPE
    run_after := u.created_at + DAYS_AFTER_SIGNUP * MS_PER_DAY
    payload := [] }

/-- Step 5: the `emailsToInsert` list, one record per remaining user. -/
def emailsToInsert (store : Store) : List ScheduledEmailRow :=
  (usersToBackfill store).map mkRecord

/-- `slice(i, i + BATCH_SIZE)` chunking of the step-6 loop. -/
def chunksOf : List ScheduledEmailRow → List (List ScheduledEmailRow)
  | [] => []
  | r :: rs => ((r :: rs).take BATCH_SIZE) :: chunksOf ((r :: rs).drop BATCH_SIZE)
termination_by l => l.length
decreasing_by
  simp [List.length_drop, BATCH_SIZE]
  omega

/-- Outcome of the step-6 insert loop. -/
structure InsertOutcome where
  insertedCount : Nat
  errorCount : Nat
  insertedRows : List ScheduledEmailRow
deriving Repr, DecidableEq

/-- The step-6 loop over batches: a failed batch (per the `failBatch` oracle,
indexed by batch number) adds `batch.length` to the error tally; a successful
one adds it to the inserted tally and its rows reach the store.  Later batches
are attempted regardless of earlier failures. -/
def insertLoop (failBatch : Nat → Bool) : Nat → List (List ScheduledEmailRow) → InsertOutcome
  | _, [] => ⟨0, 0, []⟩
  | i, b :: bs =>
    let rest := insertLoop failBatch (i + 1) bs
    if failBatch i then
      ⟨rest.insertedCount, b.length + rest.errorCount, rest.insertedRows⟩
    else
      ⟨b.length + rest.insertedCount, rest.errorCount, b ++ rest.insertedRows⟩

end Backfill

open Backfill in
/-- `backfillCommunityGrowthEmails`, faithful to the script's control flow:
env check → catalog `.single()` lookup (note: the `enabled` flag is only
printed, never tested) → user selection → set difference → record
preparation → dry-run exit or chunked insert loop.  `failBatch` models
per-batch Supabase insert errors; `now` is `new Date()`. -/
def backfillCommunityGrowthEmails (env : BackfillEnv) (store : Store) (now : Int)
    (failBatch : Nat → Bool) : BackfillResult :=
  if env.supabaseUrl.isNone || env.serviceRoleKey.isNone then
    ⟨.missingEnv, store, [], 0, 0, 0, 0⟩
  else
    match store.email_catalog.find? (fun c => c.id == EMAIL_TYPE) with
    | none => ⟨.catalogNotFound, store, [], 0, 0, 0, 0⟩
    | some _catalogEntry =>
      if (existingUsers store).isEmpty then
        ⟨.noUsers, store, [], 0, 0, 0, 0⟩
      else if (usersToBackfill store).isEmpty then
        ⟨.allScheduled, store, [], 0, 0, 0, 0⟩
      else
        let prepared := emailsToInsert store
        let immediate := prepared.filter (fun r => r.run_after ≤ now)
        let future := prepared.filter (fun r => !(r.run_after ≤ now))
        if env.dryRun then
          ⟨.dryRunDone, store, prepared, immediate.length, future.length, 0, 0⟩
        else
          let outcome := insertLoop failBatch 0 (chunksOf prepared)
          ⟨.liveDone,
            { store with scheduled_emails := store.scheduled_emails ++ outcome.insertedRows },
            prepared, immediate.length, future.length,
            outcome.insertedCount, outcome.errorCount⟩

/-! ## Email orchestrator

The orchestrator (`libs/email`) is not under the source tree — only its test
suite `tests/email-system.test.js` is — so the definitions in this part are
modelled from the specification (§3 data model, §4.1 component design) and
marked as such. -/

/-- Modelled from the spec: one Event Log row of the missing `libs/email`
orchestrator — `(user, email_type, status, external_message_id, timestamp)`,
with `status ∈ {sent, failed, skipped}`. -/
structure EmailEvent where
  user_id : String
  email_type : String
  status : String
  external_message_id : Option String
  created_at : Int
deriving Repr, DecidableEq

/-- Modelled from the spec: one Scheduler Store row of the missing
`libs/email` orchestrator — `(user, email_type, run_after, payload)` plus a
row id used to report per-row errors. -/
structure SchedRow where
  id : Nat
  user_id : String
  email_type : String
  run_after : Int
  payload : List (String × String)
deriving Repr, DecidableEq

/-- Modelled from the spec: the Activity Recorder's last-seen timestamp per
user (`user_activity.at` in the tests). -/
structure ActivityRow where
  user_id : String
  lastActiveAt : Int
deriving Repr, DecidableEq

/-- Modelled from the spec: the durable stores the orchestrator composes,
plus invocation logs for the Template Renderer (one entry per render, the
email type) and the Delivery Client (one entry per send attempt, the target
user id). -/
structure EmailSystemState where
  events : List EmailEvent
  scheduled : List SchedRow
  profiles : List Profile
  activity : List ActivityRow
  renderLog : List String
  deliveryLog : List String
deriving Repr, DecidableEq

/-- Modelled from the spec: the email types intended as one-time sends, for
which `sendEmail` consults the Event Log before dispatching. -/
def ONE_TIME_EMAIL_TYPES : List String := ["welcome", "community_growth_day135"]

/-- The Event Log idempotency lookup: an existing `sent` event for
`(userId, emailType)`. -/
def findExistingSent (events : List EmailEvent) (userId emailType : String) :
    Option EmailEvent :=
  events.find? (fun e =>
    e.user_id == userId && e.email_type == emailType && e.status == "sent")

/-- Modelled from the spec: `sendEmail(userId, to, emailType, payload)`.
For one-time types an existing `sent` event short-circuits — the prior event
is returned untouched and neither the Template Renderer nor the Delivery
Client runs.  Otherwise the template is rendered, the Delivery Client is
invoked (`deliver` maps the address to a provider message id, or `none` on
failure), and a `sent` or `failed` event is appended; failure is propagated
to the caller. -/
def sendEmail (deliver : String → Option String) (now : Int) (st : EmailSystemState)
    (userId toAddr emailType : String) (_payload : List (String × String)) :
    Except String EmailEvent × EmailSystemState :=
  match
    if ONE_TIME_EMAIL_TYPES.contains emailType then
      findExistingSent st.events userId emailType
    else none
  with
  | some existing => (Except.ok existing, st)
  | none =>
    let st1 := { st with
      renderLog := st.renderLog ++ [emailType]
      deliveryLog := st.deliveryLog ++ [userId] }
    match deliver toAddr with
    | some msgId =>
      let ev : EmailEvent := ⟨userId, emailType, "sent", some msgId, now⟩
      (Except.ok ev, { st1 with events := st1.events ++ [ev] })
    | none =>
      let ev : EmailEvent := ⟨userId, emailType, "failed", none, now⟩
      (Except.error "delivery failed", { st1 with events := st1.events ++ [ev] })

/-- Report of `processScheduledEmails`: a processed count and the ids of the
rows that errored. -/
structure ProcessReport where
  processed : Nat
  errors : List Nat
deriving Repr, DecidableEq

/-- Modelled from the spec: the due rows one cron invocation drains —
`run_after <= now`, bounded by the batch limit. -/
def dueRows (st : EmailSystemState) (now : Int) (limit : Nat) : List SchedRow :=
  (st.scheduled.filter (fun r => r.run_after ≤ now)).take limit

/-- Modelled from the spec: one row of the `processScheduledEmails` batch.
A missing profile (or one with no address) records a per-row error and leaves
the row; a successful dispatch removes the row from the Scheduler Store; a
failed dispatch records a per-row error (the `failed` event is written inside
`sendEmail`) and keeps the row for the next cycle. -/
def processScheduledStep (deliver : String → Option String) (now : Int)
    (acc : ProcessReport × EmailSystemState) (row : SchedRow) :
    ProcessReport × EmailSystemState :=
  match acc.2.profiles.find? (fun p => p.id == row.user_id) with
  | none => ({ acc.1 with errors := acc.1.errors ++ [row.id] }, acc.2)
  | some prof =>
    match prof.email with
    | none => ({ acc.1 with errors := acc.1.errors ++ [row.id] }, acc.2)
    | some addr =>
      let r := sendEmail deliver now acc.2 row.user_id addr row.email_type
        (row.payload ++ [("firstName", prof.first_name)])
      match r.1 with
      | Except.ok _ =>
        ({ acc.1 with processed := acc.1.processed + 1 },
          { r.2 with scheduled := r.2.scheduled.filter (fun s => s.id != row.id) })
      | Except.error _ =>
        ({ acc.1 with errors := acc.1.errors ++ [row.id] }, r.2)

/-- Modelled from the spec: `processScheduledEmails()` — drain the due rows
in order, never aborting the batch on one bad row. -/
def processScheduledEmails (deliver : String → Option String) (now : Int) (limit : Nat)
    (st : EmailSystemState) : ProcessReport × EmailSystemState :=
  (dueRows st now limit).foldl (processScheduledStep deliver now) (⟨0, []⟩, st)

/-- Report of `processReengageEmails`. -/
structure ReengageReport where
  processed : Nat
  sent : Nat
  skipped : Nat
deriving Repr, DecidableEq

/-- The re-engagement event type tag. -/
def REENGAGE_EMAIL_TYPE : String := "re_engagement"

/-- Defensive de-duplication by user id within one batch (keep the first
occurrence). -/
def dedupById : List Profile → List Profile
  | [] => []
  | u :: us => u :: dedupById (us.filter (fun v => v.id != u.id))
termination_by l => l.length
decreasing_by
  simp only [List.length_cons]
  exact Nat.lt_succ_of_le (List.length_filter_le _ _)

/-- Modelled from the spec: the users an invocation of
`processReengageEmails` considers — last activity strictly older than the
inactivity threshold, de-duplicated by user id. -/
def eligibleReengageUsers (st : EmailSystemState) (now threshold : Int) : List Profile :=
  dedupById (st.profiles.filter (fun p =>
    match st.activity.find? (fun a => a.user_id == p.id) with
    | some a => decide (a.lastActiveAt < now - threshold)
    | none => false))

/-- Modelled from the spec: the throttled-repeat idempotency check — a
`re_engagement` event for this user inside the recent window. -/
def recentlyReengaged (events : List EmailEvent) (userId : String) (now window : Int) :
    Bool :=
  events.any (fun e => e.user_id == userId && e.email_type == REENGAGE_EMAIL_TYPE &&
    decide (now - window ≤ e.created_at))

/-- Modelled from the spec: one user of the re-engagement batch.  A user
recently re-engaged is counted skipped without touching the Delivery Client;
otherwise the dispatch outcome classifies the user as sent or skipped. -/
def processReengageStep (deliver : String → Option String) (now window : Int)
    (acc : ReengageReport × EmailSystemState) (u : Profile) :
    ReengageReport × EmailSystemState :=
  if recentlyReengaged acc.2.events u.id now window then
    ({ acc.1 with processed := acc.1.processed + 1, skipped := acc.1.skipped + 1 }, acc.2)
  else
    match u.email with
    | none =>
      ({ acc.1 with processed := acc.1.processed + 1, skipped := acc.1.skipped + 1 }, acc.2)
    | some addr =>
      let r := sendEmail deliver now acc.2 u.id addr REENGAGE_EMAIL_TYPE
        [("firstName", u.first_name)]
      match r.1 with
      | Except.ok _ =>
        ({ acc.1 with processed := acc.1.processed + 1, sent := acc.1.sent + 1 }, r.2)
      | Except.error _ =>
        ({ acc.1 with processed := acc.1.processed + 1, skipped := acc.1.skipped + 1 }, r.2)

/-- Modelled from the spec: `processReengageEmails()` — scan the inactive
users, throttle the recently re-engaged, classify the rest by dispatch
outcome. -/
def processReengageEmails (deliver : String → Option String) (now threshold window : Int)
    (st : EmailSystemState) : ReengageReport × EmailSystemState :=
  (eligibleReengageUsers st now threshold).foldl (processReengageStep deliver now window)
    (⟨0, 0, 0⟩, st)

/-! ## Cursor parsing of the profiles listing route -/

/-- The result of `parseCursor`: the two components, or `{ lastOnlineAt:
null, lastId: null }` (both `none`) resetting pagination. -/
structure ParsedCursor where
  lastOnlineAt : Option String
  lastId : Option String
deriving Repr, DecidableEq

/-- Shallow embedding of `parseCursor` from the profiles route.  `dateOk s`
abstracts JS `!isNaN(new Date(s).getTime())` — whether the date component
parses.  A falsy cursor (absent or empty) resets; otherwise the cursor splits
on `|`; a missing or empty id component, or an unparsable date, is caught and
resets; a well-formed cursor returns its two components.  The function is
total: no input throws. -/
def parseCursor (dateOk : String → Bool) (cursor : Option String) : ParsedCursor :=
  match cursor with
  | none => ⟨none, none⟩
  | some c =>
    if c = "" then ⟨none, none⟩
    else
      let parts := c.splitOn "|"
      let lastOnlineAt := parts.headD ""
      match parts[1]? with
      | none => ⟨none, none⟩
      | some lastId =>
        if !dateOk lastOnlineAt || lastId = "" then ⟨none, none⟩
        else ⟨some lastOnlineAt, some lastId⟩

/-! ## Session-storage draft persistence (`hooks/useAvailabilityDraft.js`) -/

/-- The object the hook serializes: the form data spread together with a
`timestamp` and schema `version`. -/
structure DraftRecord where
  data : List (String × String)
  timestamp : Int
  version : String
deriving Repr, DecidableEq

/-- The record built at both write sites of `saveToSessionStorage`:
`{ ...data, timestamp: Date.now(), version: '2.0' }`. -/
def mkDraftRecord (data : List (String × String)) (now : Int) : DraftRecord :=
  { data := data, timestamp := now, version := "2.0" }

/-- Session storage as an association list of raw strings keyed by storage
key. -/
def SessionStorage : Type := List (String × String)

/-- `sessionStorage.setItem` — replace any existing entry for the key. -/
def setItem (store : SessionStorage) (k v : String) : SessionStorage :=
  (List.filter (fun p => p.1 != k) store) ++ [(k, v)]

/-- `sessionStorage.getItem` — the stored string, if any. -/
def getItem (store : SessionStorage) (k : String) : Option String :=
  ((List.find? (fun p => p.1 == k) store)).map (·.2)

/-- `sessionStorage.removeItem`. -/
def removeItem (store : SessionStorage) (k : String) : SessionStorage :=
  List.filter (fun p => p.1 != k) store

/-- Shallow embedding of `saveToSessionStorage`: serialize (`encode`
abstracts `JSON.stringify`) the data with `timestamp` and `version: '2.0'`
and store it.  If the first `setItem` throws (`firstFails`) and the error is
`QuotaExceededError` (`firstIsQuota`), clear the whole storage and retry
once; a failing retry (`retryFails`) leaves the cleared storage; a non-quota
failure leaves storage untouched.  The oracles model the two `try/catch`
levels of the hook. -/
def saveToSessionStorage (encode : DraftRecord → String) (now : Int)
    (firstFails firstIsQuota retryFails : Bool) (store : SessionStorage)
    (draftKey : String) (data : List (String × String)) : SessionStorage :=
  let payload := encode (mkDraftRecord data now)
  if !firstFails then setItem store draftKey payload
  else if firstIsQuota then
    if !retryFails then setItem [] draftKey payload else []
  else store

/-- Shallow embedding of `loadFromSessionStorage`: a missing or falsy (empty)
entry yields `null`; a present entry is `JSON.parse`d (`decode` abstracts it,
`none` = the parse throws); a parse failure is caught, the corrupted entry is
removed, and `null` is returned. -/
def loadFromSessionStorage (decode : String → Option DraftRecord)
    (store : SessionStorage) (draftKey : String) :
    Option DraftRecord × SessionStorage :=
  match getItem store draftKey with
  | none => (none, store)
  | some raw =>
    if raw = "" then (none, store)
    else
      match decode raw with
      | some parsed => (some parsed, store)
      | none => (none, removeItem store draftKey)

section BackfillTheorems

open Backfill

/-- C5: Dry-run purity of the backfill script: with the dry-run flag set, the
store after the run equals the store before it, on every control path — the
insert loop is never reached. -/
theorem backfill_dry_run_pure (env : BackfillEnv) (store : Store) (now : Int)
    (failBatch : Nat → Bool) (h : env.dryRun = true) :
    (backfillCommunityGrowthEmails env store now failBatch).store = store := by
  unfold backfillCommunityGrowthEmails
  split
  · rfl
  · split
    · rfl
    · split
      · rfl
      · split
        · rfl
        · simp only [h, if_true]

/-- Witness for `backfill_dry_run_pure` at a concrete dry-run invocation. -/
theorem backfill_dry_run_pure_witness :
    (backfillCommunityGrowthEmails ⟨true, some "url", some "key"⟩
        ⟨[⟨"community_growth_day135", "d", true⟩], [⟨"u1", some "a@b.c", "Ada", 0⟩], []⟩
        0 (fun _ => false)).store
      = ⟨[⟨"community_growth_day135", "d", true⟩], [⟨"u1", some "a@b.c", "Ada", 0⟩], []⟩ :=
  backfill_dry_run_pure _ _ _ _ rfl

/-- A store whose catalog entry for the target type exists but is disabled,
with one pre-release user and no scheduled rows. -/
def disabledCatalogStore : Store :=
  { email_catalog := [⟨"community_growth_day135", "135-day community growth email", false⟩]
    profiles := [⟨"u1", some "u1@example.com", "Ada", 0⟩]
    scheduled_emails := [] }

/-- A live-mode environment with both credentials present. -/
def liveEnv : BackfillEnv :=
  ⟨false, some "https://example.supabase.co", some "service-role-key"⟩

/-- C4 counterexample: with the catalog entry present but `enabled = false`,
the script does not abort — it runs to live completion and inserts a row
(the store gains a `scheduled_emails` row), contradicting the claim that a
not-enabled type aborts before any write.  The script only checks that the
catalog row exists; `enabled` is printed, never tested. -/
theorem backfill_disabled_catalog_still_writes :
    (backfillCommunityGrowthEmails liveEnv disabledCatalogStore 0 (fun _ => false)).exit
        = BackfillExit.liveDone ∧
      (backfillCommunityGrowthEmails liveEnv disabledCatalogStore 0
          (fun _ => false)).store.scheduled_emails.length = 1 ∧
      disabledCatalogStore.scheduled_emails.length = 0 := by
  refine ⟨rfl, ?_, rfl⟩
  simp [backfillCommunityGrowthEmails, liveEnv, disabledCatalogStore, existingUsers,
    usersToBackfill, alreadyScheduledUserIds, userIds, emailsToInsert, mkRecord, chunksOf,
    insertLoop, FEATURE_RELEASE_DATE, EMAIL_TYPE, BATCH_SIZE]

/-- C4 (amended): if a store credential is absent or the target email type is
missing from the catalog, the script aborts with the corresponding diagnostic
exit before performing any write: the store is unchanged and nothing is
inserted.  (The `enabled` flag of an existing catalog row is reported but not
enforced.) -/
theorem backfill_config_error_aborts (env : BackfillEnv) (store : Store) (now : Int)
    (failBatch : Nat → Bool)
    (h : env.supabaseUrl = none ∨ env.serviceRoleKey = none ∨
      store.email_catalog.find? (fun c => c.id == EMAIL_TYPE) = none) :
    (backfillCommunityGrowthEmails env store now failBatch).store = store ∧
      (backfillCommunityGrowthEmails env store now failBatch).insertedCount = 0 ∧
      ((backfillCommunityGrowthEmails env store now failBatch).exit = BackfillExit.missingEnv ∨
        (backfillCommunityGrowthEmails env store now failBatch).exit
          = BackfillExit.catalogNotFound) := by
  unfold backfillCommunityGrowthEmails
  rcases h with h | h | h
  · simp [h]
  · simp [h]
  · split
    · exact ⟨rfl, rfl, Or.inl rfl⟩
    · rw [h]
      exact ⟨rfl, rfl, Or.inr rfl⟩

/-- Witness for `backfill_config_error_aborts`: a concrete invocation with the
service-role key absent. -/
theorem backfill_config_error_aborts_witness :
    (backfillCommunityGrowthEmails ⟨false, some "url", none⟩ ⟨[], [], []⟩ 0
          (fun _ => false)).store = ⟨[], [], []⟩ ∧
      (backfillCommunityGrowthEmails ⟨false, some "url", none⟩ ⟨[], [], []⟩ 0
          (fun _ => false)).insertedCount = 0 ∧
      ((backfillCommunityGrowthEmails ⟨false, some "url", none⟩ ⟨[], [], []⟩ 0
            (fun _ => false)).exit = BackfillExit.missingEnv ∨
        (backfillCommunityGrowthEmails ⟨false, some "url", none⟩ ⟨[], [], []⟩ 0
            (fun _ => false)).exit = BackfillExit.catalogNotFound) :=
  backfill_config_error_aborts _ _ _ _ (Or.inr (Or.inl rfl))

theorem chunksOf_nil : chunksOf [] = [] := by
  simp [chunksOf]

theorem chunksOf_cons (r : ScheduledEmailRow) (rs : List ScheduledEmailRow) :
    chunksOf (r :: rs)
      = ((r :: rs).take BATCH_SIZE) :: chunksOf ((r :: rs).drop BATCH_SIZE) := by
  rw [chunksOf]

/-- Concatenating the step-6 batches gives back the prepared list. -/
theorem chunksOf_flatten (l : List ScheduledEmailRow) : (chunksOf l).flatten = l := by
  induction l using chunksOf.induct with
  | case1 => simp [chunksOf]
  | case2 r rs ih => rw [chunksOf_cons, List.flatten_cons, ih, List.take_append_drop]

/-- The loop issues `⌈n / BATCH_SIZE⌉` batches. -/
theorem chunksOf_length (l : List ScheduledEmailRow) :
    (chunksOf l).length = (l.length + (BATCH_SIZE - 1)) / BATCH_SIZE := by
  induction l using chunksOf.induct with
  | case1 => simp [chunksOf, BATCH_SIZE]
  | case2 r rs ih =>
    rw [chunksOf_cons]
    simp only [List.length_cons, ih, List.length_drop, List.length_take]
    simp only [BATCH_SIZE]
    omega

/-- Every batch holds at most `BATCH_SIZE` rows. -/
theorem chunksOf_le (l : List ScheduledEmailRow) : ∀ b ∈ chunksOf l, b.length ≤ BATCH_SIZE := by
  induction l using chunksOf.induct with
  | case1 => simp [chunksOf]
  | case2 r rs ih =>
    rw [chunksOf_cons]
    intro b hb
    rcases List.mem_cons.mp hb with h | h
    · subst h; simp
    · exact ih b h

/-- Inserted plus errored rows account for every row handed to the loop. -/
theorem insertLoop_total (fail : Nat → Bool) (k : Nat) (bs : List (List ScheduledEmailRow)) :
    (insertLoop fail k bs).insertedCount + (insertLoop fail k bs).errorCount
      = (bs.map List.length).sum := by
  induction bs generalizing k with
  | nil => rfl
  | cons b bs ih =>
    have h := ih (k + 1)
    simp only [insertLoop, List.map_cons, List.sum_cons]
    split <;> (dsimp only; omega)

/-- With no batch failing, the loop inserts exactly the concatenation of the
batches, in order. -/
theorem insertLoop_all_ok (k : Nat) (bs : List (List ScheduledEmailRow)) :
    (insertLoop (fun _ => false) k bs).insertedRows = bs.flatten := by
  induction bs generalizing k with
  | nil => rfl
  | cons b bs ih => simp [insertLoop, ih (k + 1)]

/-- A batch whose insert does not fail reaches the store, regardless of what
earlier batches did: failures do not stop the loop. -/
theorem insertLoop_attempted (fail : Nat → Bool) (k : Nat)
    (bs : List (List ScheduledEmailRow)) :
    ∀ i b, fail (k + i) = false → bs[i]? = some b →
      b.Sublist (insertLoop fail k bs).insertedRows := by
  induction bs generalizing k with
  | nil => intro i b _ h; simp at h
  | cons hd tl ih =>
    intro i b hf hget
    cases i with
    | zero =>
      simp only [List.getElem?_cons_zero, Option.some.injEq] at hget
      subst hget
      simp only [insertLoop]
      rw [if_neg (by simp_all)]
      exact List.sublist_append_left _ _
    | succ i =>
      have hidx : k + 1 + i = k + (i + 1) := by omega
      have hrec := ih (k + 1) i b (by rw [hidx]; exact hf)
        (by simpa using hget)
      simp only [insertLoop]
      split
      · exact hrec
      · exact hrec.trans (List.sublist_append_right _ _)

/-- C7: chunked insertion with partial-failure tolerance in the backfill's
live mode: for every prepared list of `n` rows and every failure pattern, the
insert loop issues `⌈n / 100⌉` batch inserts of at most 100 rows each; after
the loop `insertedCount + errorCount = n`; and a batch whose own insert does
not fail reaches the store even when earlier batches failed. -/
theorem backfill_chunked_insert_loop (l : List ScheduledEmailRow) (fail : Nat → Bool) :
    (chunksOf l).length = (l.length + 99) / 100 ∧
      (∀ b ∈ chunksOf l, b.length ≤ 100) ∧
      (insertLoop fail 0 (chunksOf l)).insertedCount
          + (insertLoop fail 0 (chunksOf l)).errorCount = l.length ∧
      (∀ i b, fail i = false → (chunksOf l)[i]? = some b →
        b.Sublist (insertLoop fail 0 (chunksOf l)).insertedRows) := by
  refine ⟨?_, ?_, ?_, ?_⟩
  · simpa [BATCH_SIZE] using chunksOf_length l
  · simpa [BATCH_SIZE] using chunksOf_le l
  · rw [insertLoop_total, ← List.length_flatten, chunksOf_flatten]
  · intro i b hf hget
    exact insertLoop_attempted fail 0 (chunksOf l) i b (by simpa using hf) hget

/-- A sample prepared row used to instantiate hypotheses in witnesses. -/
def demoRow : ScheduledEmailRow := ⟨"u1", "community_growth_day135", 0, []⟩

/-- Witness for `backfill_chunked_insert_loop` on a one-row prepared list. -/
theorem backfill_chunked_insert_loop_witness :
    (chunksOf [demoRow]).length = (([demoRow] : List ScheduledEmailRow).length + 99) / 100 ∧
      ([demoRow] : List ScheduledEmailRow).length ≤ 100 ∧
      (insertLoop (fun _ => false) 0 (chunksOf [demoRow])).insertedCount
          + (insertLoop (fun _ => false) 0 (chunksOf [demoRow])).errorCount
          = ([demoRow] : List ScheduledEmailRow).length ∧
      ([demoRow] : List ScheduledEmailRow).Sublist
        (insertLoop (fun _ => false) 0 (chunksOf [demoRow])).insertedRows := by
  have h := backfill_chunked_insert_loop [demoRow] (fun _ => false)
  exact ⟨h.1, h.2.1 [demoRow] (by simp [chunksOf, BATCH_SIZE]), h.2.2.1,
    h.2.2.2 0 [demoRow] rfl (by simp [chunksOf, BATCH_SIZE])⟩

/-- Filtering a list with pairwise-distinct keys for the key of a member
yields exactly that member. -/
theorem filter_key_singleton {α β : Type} [DecidableEq β] (f : α → β) :
    ∀ l : List α, (l.map f).Nodup → ∀ u ∈ l, l.filter (fun v => f v == f u) = [u] := by
  intro l
  induction l with
  | nil => intro _ u hu; cases hu
  | cons a l ih =>
    intro hnd u hu
    simp only [List.map_cons, List.nodup_cons, List.mem_map, not_exists] at hnd
    rcases List.mem_cons.mp hu with rfl | hu
    · rw [List.filter_cons_of_pos (by simp)]
      have hnil : l.filter (fun v => f v == f u) = [] := by
        refine List.filter_eq_nil_iff.mpr fun v hv => ?_
        simp only [beq_iff_eq]
        exact fun h => hnd.1 v ⟨hv, h⟩
      rw [hnil]
    · rw [List.filter_cons_of_neg ?_, ih hnd.2 u hu]
      simp only [beq_iff_eq]
      exact fun h => hnd.1 u ⟨hu, h.symm⟩

/-- Membership in the step-4 set difference from the three conditions the
script filters on. -/
theorem mem_usersToBackfill (store : Store) (u : Profile)
    (hu : u ∈ store.profiles) (hcut : u.created_at < FEATURE_RELEASE_DATE)
    (hnos : ∀ e ∈ store.scheduled_emails, e.email_type = EMAIL_TYPE → e.user_id ≠ u.id) :
    u ∈ usersToBackfill store := by
  have hex : u ∈ existingUsers store :=
    List.mem_filter.mpr ⟨hu, by simpa using hcut⟩
  refine List.mem_filter.mpr ⟨hex, ?_⟩
  have hnot : u.id ∉ alreadyScheduledUserIds store := by
    intro hmem
    rcases List.mem_map.mp hmem with ⟨e, hefil, heid⟩
    have he := List.mem_filter.mp hefil
    have htype : e.email_type = EMAIL_TYPE := by
      have h2 := he.2
      simp only [Bool.and_eq_true, beq_iff_eq] at h2
      exact h2.1
    exact hnos e he.1 htype heid
  simp [List.contains, List.elem_eq_mem, hnot]

/-- C6: `run_after` computation of the backfill: for every user below the
cutoff lacking an existing scheduled row of the target type (profile ids
being unique), step 5 prepares exactly one record for that user, and it has
`email_type = 'community_growth_day135'`,
`run_after = signup + 135 days` and an empty payload; when the live insert
path runs without batch failures, that record reaches the store. -/
theorem backfill_run_after_computation (env : BackfillEnv) (store : Store) (now : Int)
    (u : Profile)
    (hnd : (store.profiles.map Profile.id).Nodup)
    (hu : u ∈ store.profiles) (hcut : u.created_at < FEATURE_RELEASE_DATE)
    (hnos : ∀ e ∈ store.scheduled_emails, e.email_type = EMAIL_TYPE → e.user_id ≠ u.id) :
    (emailsToInsert store).filter (fun r => r.user_id == u.id)
        = [⟨u.id, "community_growth_day135", u.created_at + 135 * 86400000, []⟩] ∧
      (env.supabaseUrl.isSome → env.serviceRoleKey.isSome → env.dryRun = false →
        store.email_catalog.find? (fun c => c.id == EMAIL_TYPE) ≠ none →
        (⟨u.id, "community_growth_day135", u.created_at + 135 * 86400000, []⟩ :
            ScheduledEmailRow)
          ∈ (backfillCommunityGrowthEmails env store now (fun _ => false)).store.scheduled_emails) := by
  have hmem : u ∈ usersToBackfill store := mem_usersToBackfill store u hu hcut hnos
  have hndb : ((usersToBackfill store).map Profile.id).Nodup := by
    have h1 : (existingUsers store).Sublist store.profiles := List.filter_sublist _
    have h2 : (usersToBackfill store).Sublist (existingUsers store) := List.filter_sublist _
    exact hnd.sublist ((h2.trans h1).map Profile.id)
  have hfil : (emailsToInsert store).filter (fun r => r.user_id == u.id)
      = [⟨u.id, "community_growth_day135", u.created_at + 135 * 86400000, []⟩] := by
    unfold emailsToInsert
    have hcomp : (fun r : ScheduledEmailRow => r.user_id == u.id) ∘ mkRecord
        = fun v : Profile => v.id == Profile.id u := by
      funext v; rfl
    rw [List.filter_map, hcomp, filter_key_singleton Profile.id _ hndb u hmem]
    simp [mkRecord, EMAIL_TYPE, DAYS_AFTER_SIGNUP, MS_PER_DAY]
  refine ⟨hfil, fun hurl hkey hdry hcat => ?_⟩
  have hrec : (⟨u.id, "community_growth_day135", u.created_at + 135 * 86400000, []⟩ :
      ScheduledEmailRow) ∈ emailsToInsert store := by
    have : (⟨u.id, "community_growth_day135", u.created_at + 135 * 86400000, []⟩ :
        ScheduledEmailRow) ∈ (emailsToInsert store).filter (fun r => r.user_id == u.id) := by
      rw [hfil]; exact List.mem_singleton.mpr rfl
    exact (List.mem_filter.mp this).1
  have hex : u ∈ existingUsers store := (List.mem_filter.mp hmem).1
  unfold backfillCommunityGrowthEmails
  rw [if_neg (by
    simp only [Bool.or_eq_true, Option.isNone_iff_eq_none]
    rintro (h | h)
    · rw [h] at hurl; simp at hurl
    · rw [h] at hkey; simp at hkey)]
  split
  · next hfind => exact absurd hfind hcat
  · next c hfind =>
    split
    · next h =>
      rw [List.isEmpty_iff] at h
      exact absurd h (List.ne_nil_of_mem hex)
    · next h =>
      split
      · next h2 =>
        rw [List.isEmpty_iff] at h2
        exact absurd h2 (List.ne_nil_of_mem hmem)
      · next h2 =>
        rw [if_neg (by simp [hdry])]
        simp only [List.mem_append]
        right
        rw [insertLoop_all_ok, chunksOf_flatten]
        exact hrec

/-- Witness for `backfill_run_after_computation`: one user who signed up at
epoch 0, an enabled catalog entry, no scheduled rows, live environment. -/
theorem backfill_run_after_computation_witness :
    (emailsToInsert ⟨[⟨"community_growth_day135", "d", true⟩],
          [⟨"u1", some "a@b.c", "Ada", 0⟩], []⟩).filter
        (fun r => r.user_id == "u1")
        = [⟨"u1", "community_growth_day135", 0 + 135 * 86400000, []⟩] ∧
      (⟨"u1", "community_growth_day135", 0 + 135 * 86400000, []⟩ : ScheduledEmailRow)
        ∈ (backfillCommunityGrowthEmails ⟨false, some "url", some "key"⟩
            ⟨[⟨"community_growth_day135", "d", true⟩], [⟨"u1", some "a@b.c", "Ada", 0⟩], []⟩
            0 (fun _ => false)).store.scheduled_emails := by
  have h := backfill_run_after_computation ⟨false, some "url", some "key"⟩
    ⟨[⟨"community_growth_day135", "d", true⟩], [⟨"u1", some "a@b.c", "Ada", 0⟩], []⟩ 0
    ⟨"u1", some "a@b.c", "Ada", 0⟩
    (by simp) (by simp) (by simp [FEATURE_RELEASE_DATE]) (by simp)
  exact ⟨h.1, h.2 rfl rfl rfl (by simp [EMAIL_TYPE])⟩

/-- Updating `scheduled_emails` leaves the step-2 user selection alone. -/
theorem existingUsers_update (store : Store) (x : List ScheduledEmailRow) :
    existingUsers { store with scheduled_emails := x } = existingUsers store := rfl

/-- After appending the prepared records to the store, no user below the
cutoff is left without a scheduled row: step 4's set difference is empty on a
re-run. -/
theorem usersToBackfill_after_live (store : Store) :
    usersToBackfill
      { store with scheduled_emails := store.scheduled_emails ++ emailsToInsert store } = [] := by
  refine List.filter_eq_nil_iff.mpr fun u hu => ?_
  have hu' : u ∈ existingUsers store := hu
  have hmem : u.id ∈ alreadyScheduledUserIds
      { store with scheduled_emails := store.scheduled_emails ++ emailsToInsert store } := by
    by_cases hc : u.id ∈ alreadyScheduledUserIds store
    · rcases List.mem_map.mp hc with ⟨e, he, heid⟩
      refine List.mem_map.mpr ⟨e, ?_, heid⟩
      have hef := List.mem_filter.mp he
      exact List.mem_filter.mpr ⟨List.mem_append_left _ hef.1, hef.2⟩
    · have hub : u ∈ usersToBackfill store := by
        refine List.mem_filter.mpr ⟨hu', ?_⟩
        simp [List.contains, List.elem_eq_mem, hc]
      refine List.mem_map.mpr ⟨mkRecord u, ?_, rfl⟩
      refine List.mem_filter.mpr
        ⟨List.mem_append_right _ (List.mem_map.mpr ⟨u, hub, rfl⟩), ?_⟩
      have hid : u.id ∈ userIds
          { store with scheduled_emails := store.scheduled_emails ++ emailsToInsert store } :=
        List.mem_map.mpr ⟨u, hu', rfl⟩
      simp [mkRecord, List.contains, List.elem_eq_mem, hid]
  simp [List.contains, List.elem_eq_mem, hmem]

/-- Control-path case split for one run of the script: either it stops on one
of the five pre-insert exits with the store untouched, or it reaches the live
insert loop and appends exactly the successful batches. -/
theorem backfill_cases (env : BackfillEnv) (store : Store) (now : Int) (fail : Nat → Bool) :
    ((env.supabaseUrl.isNone || env.serviceRoleKey.isNone) = true ∧
        (backfillCommunityGrowthEmails env store now fail).store = store) ∨
      (store.email_catalog.find? (fun c => c.id == EMAIL_TYPE) = none ∧
        (backfillCommunityGrowthEmails env store now fail).store = store) ∨
      (existingUsers store = [] ∧
        (backfillCommunityGrowthEmails env store now fail).store = store) ∨
      (usersToBackfill store = [] ∧
        (backfillCommunityGrowthEmails env store now fail).store = store) ∨
      (env.dryRun = true ∧
        (backfillCommunityGrowthEmails env store now fail).store = store) ∨
      (backfillCommunityGrowthEmails env store now fail).store
        = { store with scheduled_emails := store.scheduled_emails
            ++ (insertLoop fail 0 (chunksOf (emailsToInsert store))).insertedRows } := by
  unfold backfillCommunityGrowthEmails
  split
  · next h => exact Or.inl ⟨h, rfl⟩
  · next h =>
    split
    · next hfind => exact Or.inr (Or.inl ⟨hfind, rfl⟩)
    · next c hfind =>
      split
      · next he => exact Or.inr (Or.inr (Or.inl ⟨List.isEmpty_iff.mp he, rfl⟩))
      · next he =>
        split
        · next hb => exact Or.inr (Or.inr (Or.inr (Or.inl ⟨List.isEmpty_iff.mp hb, rfl⟩)))
        · next hb =>
          split
          · next hd => exact Or.inr (Or.inr (Or.inr (Or.inr (Or.inl ⟨hd, rfl⟩))))
          · next hd => exact Or.inr (Or.inr (Or.inr (Or.inr (Or.inr rfl))))

/-- A run on a store whose step-4 difference is already empty (or that aborts
on configuration) inserts nothing and leaves the store unchanged. -/
theorem backfill_no_insert (env : BackfillEnv) (store : Store) (now : Int) (fail : Nat → Bool)
    (h : (env.supabaseUrl.isNone || env.serviceRoleKey.isNone) = true ∨
      store.email_catalog.find? (fun c => c.id == EMAIL_TYPE) = none ∨
      existingUsers store = [] ∨ usersToBackfill store = []) :
    (backfillCommunityGrowthEmails env store now fail).insertedCount = 0 ∧
      (backfillCommunityGrowthEmails env store now fail).store = store := by
  unfold backfillCommunityGrowthEmails
  rcases h with h | h | h | h
  · rw [if_pos h]; exact ⟨rfl, rfl⟩
  · split
    · exact ⟨rfl, rfl⟩
    · rw [h]; exact ⟨rfl, rfl⟩
  · split
    · exact ⟨rfl, rfl⟩
    · split
      · exact ⟨rfl, rfl⟩
      · rw [if_pos (List.isEmpty_iff.mpr h)]; exact ⟨rfl, rfl⟩
  · split
    · exact ⟨rfl, rfl⟩
    · split
      · exact ⟨rfl, rfl⟩
      · split
        · exact ⟨rfl, rfl⟩
        · rw [if_pos (List.isEmpty_iff.mpr h)]; exact ⟨rfl, rfl⟩

/-- C2: Idempotence of the backfill script: for every user set and set of
pre-existing scheduled rows, after a live run whose inserts all succeed, a
second run (same environment, any clock, any insert-failure pattern) inserts
zero new `scheduled_emails` rows and leaves the store — hence the final row
count — exactly as the first run left it. -/
theorem backfill_idempotent (env : BackfillEnv) (store : Store) (now1 now2 : Int)
    (fail2 : Nat → Bool) (hdry : env.dryRun = false) :
    (backfillCommunityGrowthEmails env
        (backfillCommunityGrowthEmails env store now1 (fun _ => false)).store
        now2 fail2).insertedCount = 0 ∧
      (backfillCommunityGrowthEmails env
          (backfillCommunityGrowthEmails env store now1 (fun _ => false)).store
          now2 fail2).store
        = (backfillCommunityGrowthEmails env store now1 (fun _ => false)).store := by
  rcases backfill_cases env store now1 (fun _ => false) with
    ⟨hc, hst⟩ | ⟨hc, hst⟩ | ⟨hc, hst⟩ | ⟨hc, hst⟩ | ⟨hc, hst⟩ | hst
  · rw [hst]; exact backfill_no_insert env store now2 fail2 (Or.inl hc)
  · rw [hst]; exact backfill_no_insert env store now2 fail2 (Or.inr (Or.inl hc))
  · rw [hst]; exact backfill_no_insert env store now2 fail2 (Or.inr (Or.inr (Or.inl hc)))
  · rw [hst]; exact backfill_no_insert env store now2 fail2 (Or.inr (Or.inr (Or.inr hc)))
  · rw [hdry] at hc; cases hc
  · rw [insertLoop_all_ok, chunksOf_flatten] at hst
    rw [hst]
    exact backfill_no_insert env _ now2 fail2
      (Or.inr (Or.inr (Or.inr (usersToBackfill_after_live store))))

/-- Witness for `backfill_idempotent`: live environment, one fresh user. -/
theorem backfill_idempotent_witness :
    (backfillCommunityGrowthEmails ⟨false, some "url", some "key"⟩
        (backfillCommunityGrowthEmails ⟨false, some "url", some "key"⟩
          ⟨[⟨"community_growth_day135", "d", true⟩], [⟨"u1", some "a@b.c", "Ada", 0⟩], []⟩
          0 (fun _ => false)).store
        0 (fun _ => false)).insertedCount = 0 ∧
      (backfillCommunityGrowthEmails ⟨false, some "url", some "key"⟩
          (backfillCommunityGrowthEmails ⟨false, some "url", some "key"⟩
            ⟨[⟨"community_growth_day135", "d", true⟩], [⟨"u1", some "a@b.c", "Ada", 0⟩], []⟩
            0 (fun _ => false)).store
          0 (fun _ => false)).store
        = (backfillCommunityGrowthEmails ⟨false, some "url", some "key"⟩
            ⟨[⟨"community_growth_day135", "d", true⟩], [⟨"u1", some "a@b.c", "Ada", 0⟩], []⟩
            0 (fun _ => false)).store :=
  backfill_idempotent ⟨false, some "url", some "key"⟩
    ⟨[⟨"community_growth_day135", "d", true⟩], [⟨"u1", some "a@b.c", "Ada", 0⟩], []⟩
    0 0 (fun _ => false) rfl

end BackfillTheorems

section CursorTheorems

/-- C9: total cursor parsing in the profiles listing endpoint: for every
cursor string whose date component does not parse, or whose id component is
missing or empty, `parseCursor` returns `{ lastOnlineAt: null, lastId:
null }`, resetting pagination instead of failing (the function is total, so
the GET handler never fails on a malformed cursor). -/
theorem parseCursor_resets_on_malformed (dateOk : String → Bool) (c : String)
    (h : dateOk ((c.splitOn "|").headD "") = false ∨ (c.splitOn "|")[1]? = none ∨
      (c.splitOn "|")[1]? = some "") :
    parseCursor dateOk (some c) = ⟨none, none⟩ := by
  rcases h with h | h | h
  · cases hq : (c.splitOn "|")[1]? with
    | none => simp [parseCursor, hq]
    | some lastId =>
      by_cases hc : c = ""
      · simp [parseCursor, hc]
      · simp only [parseCursor, if_neg hc, hq]
        rw [h]
        simp
  · simp [parseCursor, h]
  · simp [parseCursor, h]

/-- Witness for `parseCursor_resets_on_malformed`: a cursor whose date
component does not parse. -/
theorem parseCursor_resets_on_malformed_witness :
    parseCursor (fun _ => false) (some "garbage|abc123") = ⟨none, none⟩ :=
  parseCursor_resets_on_malformed (fun _ => false) "garbage|abc123" (Or.inl rfl)

end CursorTheorems

section OrchestratorTheorems

/-- A fresh one-time send appends exactly one `sent` event and invokes the
renderer and the Delivery Client once each. -/
theorem sendEmail_fresh_success (deliver : String → Option String) (now : Int)
    (st : EmailSystemState) (u toAddr emailType : String) (p : List (String × String))
    (msgId : String)
    (hnone : findExistingSent st.events u emailType = none)
    (hdeliver : deliver toAddr = some msgId) :
    sendEmail deliver now st u toAddr emailType p
      = (Except.ok ⟨u, emailType, "sent", some msgId, now⟩,
        { st with
          events := st.events ++ [⟨u, emailType, "sent", some msgId, now⟩]
          renderLog := st.renderLog ++ [emailType]
          deliveryLog := st.deliveryLog ++ [u] }) := by
  simp [sendEmail, hnone, hdeliver]

/-- Appending a matching `sent` event to a log with no prior match makes the
idempotency lookup return exactly that event. -/
theorem findExistingSent_append (events : List EmailEvent) (u emailType : String)
    (ev : EmailEvent) (hnone : findExistingSent events u emailType = none)
    (hu : ev.user_id = u) (ht : ev.email_type = emailType) (hs : ev.status = "sent") :
    findExistingSent (events ++ [ev]) u emailType = some ev := by
  unfold findExistingSent at hnone ⊢
  rw [List.find?_append, hnone]
  simp [hu, ht, hs]

/-- C1: at-most-once idempotence of `sendEmail` for one-time email types:
after a successful first send of `'welcome'` to a user with no prior `sent`
event for that pair, a second `sendEmail` for the same `(userId, 'welcome')`
returns the first call's result — the same `EmailEvent`, with the Event Log,
the render log and the delivery log unchanged — and the Event Log holds
exactly one `sent` event for the pair. -/
theorem sendEmail_welcome_idempotent (deliver : String → Option String)
    (now1 now2 : Int) (st : EmailSystemState) (u to1 to2 : String)
    (p1 p2 : List (String × String)) (msgId : String)
    (hnone : findExistingSent st.events u "welcome" = none)
    (hdeliver : deliver to1 = some msgId) :
    sendEmail deliver now2 (sendEmail deliver now1 st u to1 "welcome" p1).2 u to2
        "welcome" p2
      = sendEmail deliver now1 st u to1 "welcome" p1 ∧
      (sendEmail deliver now1 st u to1 "welcome" p1).2.events.countP
          (fun e => e.user_id == u && e.email_type == "welcome" && e.status == "sent")
        = 1 := by
  have h1 := sendEmail_fresh_success deliver now1 st u to1 "welcome" p1 msgId
    hnone hdeliver
  have hzero : st.events.countP
      (fun e => e.user_id == u && e.email_type == "welcome" && e.status == "sent") = 0 :=
    List.countP_eq_zero.mpr (List.find?_eq_none.mp hnone)
  have hfind2 : findExistingSent
      (st.events ++ [⟨u, "welcome", "sent", some msgId, now1⟩]) u "welcome"
      = some ⟨u, "welcome", "sent", some msgId, now1⟩ :=
    findExistingSent_append st.events u "welcome" _ hnone rfl rfl rfl
  constructor
  · rw [h1]
    simp only [sendEmail]
    have hct : ONE_TIME_EMAIL_TYPES.contains "welcome" = true := rfl
    rw [if_pos hct, hfind2]
  · rw [h1]
    simp only []
    rw [List.countP_append, hzero]
    simp

/-- Witness for `sendEmail_welcome_idempotent`: empty Event Log, a Delivery
Client that accepts everything. -/
theorem sendEmail_welcome_idempotent_witness :
    sendEmail (fun _ => some "mid") 1
        (sendEmail (fun _ => some "mid") 0 ⟨[], [], [], [], [], []⟩ "u1" "a@b.c"
          "welcome" []).2 "u1" "a@b.c" "welcome" []
      = sendEmail (fun _ => some "mid") 0 ⟨[], [], [], [], [], []⟩ "u1" "a@b.c"
          "welcome" [] ∧
      (sendEmail (fun _ => some "mid") 0 ⟨[], [], [], [], [], []⟩ "u1" "a@b.c"
          "welcome" []).2.events.countP
          (fun e => e.user_id == "u1" && e.email_type == "welcome" && e.status == "sent")
        = 1 :=
  sendEmail_welcome_idempotent (fun _ => some "mid") 0 1 ⟨[], [], [], [], [], []⟩
    "u1" "a@b.c" "a@b.c" [] [] "mid" rfl rfl

/-- A row whose profile cannot be resolved records a per-row error and leaves
report counts and state alone. -/
theorem processScheduledStep_noProfile (deliver : String → Option String) (now : Int)
    (acc : ProcessReport × EmailSystemState) (row : SchedRow)
    (h : acc.2.profiles.find? (fun p => p.id == row.user_id) = none) :
    processScheduledStep deliver now acc row
      = ({ acc.1 with errors := acc.1.errors ++ [row.id] }, acc.2) := by
  unfold processScheduledStep
  rw [h]

/-- A row whose profile resolves, with no prior matching `sent` event and a
successful delivery, increments `processed`, appends the `sent` event, logs
one render and one delivery, and drops the row from the Scheduler Store. -/
theorem processScheduledStep_success (deliver : String → Option String) (now : Int)
    (acc : ProcessReport × EmailSystemState) (row : SchedRow) (prof : Profile)
    (addr msgId : String)
    (hp : acc.2.profiles.find? (fun p => p.id == row.user_id) = some prof)
    (he : prof.email = some addr)
    (hnone : findExistingSent acc.2.events row.user_id row.email_type = none)
    (hd : deliver addr = some msgId) :
    processScheduledStep deliver now acc row
      = ({ acc.1 with processed := acc.1.processed + 1 },
        { acc.2 with
          events := acc.2.events ++ [⟨row.user_id, row.email_type, "sent", some msgId, now⟩]
          scheduled := acc.2.scheduled.filter (fun s => s.id != row.id)
          renderLog := acc.2.renderLog ++ [row.email_type]
          deliveryLog := acc.2.deliveryLog ++ [row.user_id] }) := by
  simp only [processScheduledStep, hp, he,
    sendEmail_fresh_success deliver now acc.2 row.user_id addr row.email_type
      (row.payload ++ [("firstName", prof.first_name)]) msgId hnone hd]

/-- C3: batch isolation of `processScheduledEmails`: for a batch of three due
rows where profile resolution fails for exactly the second one (and the first
and third dispatch freshly and successfully), the report says `processed = 2`
with exactly one error entry naming the second row, the Delivery Client is
invoked exactly twice — for the first and the third row — and the third row
is dispatched despite the second row's failure. -/
theorem processScheduledEmails_batch_isolation (deliver : String → Option String)
    (now : Int) (limit : Nat) (st : EmailSystemState) (r1 r2 r3 : SchedRow)
    (prof1 prof3 : Profile) (a1 a3 m1 m3 : String)
    (hsched : st.scheduled = [r1, r2, r3])
    (hdue1 : r1.run_after ≤ now) (hdue2 : r2.run_after ≤ now) (hdue3 : r3.run_after ≤ now)
    (hlim : 3 ≤ limit)
    (hp1 : st.profiles.find? (fun p => p.id == r1.user_id) = some prof1)
    (hpe1 : prof1.email = some a1)
    (hp2 : st.profiles.find? (fun p => p.id == r2.user_id) = none)
    (hp3 : st.profiles.find? (fun p => p.id == r3.user_id) = some prof3)
    (hpe3 : prof3.email = some a3)
    (hd1 : deliver a1 = some m1) (hd3 : deliver a3 = some m3)
    (hev : st.events = [])
    (hne : r3.user_id ≠ r1.user_id ∨ r3.email_type ≠ r1.email_type) :
    (processScheduledEmails deliver now limit st).1.processed = 2 ∧
      (processScheduledEmails deliver now limit st).1.errors = [r2.id] ∧
      (processScheduledEmails deliver now limit st).2.deliveryLog
        = st.deliveryLog ++ [r1.user_id, r3.user_id] := by
  have hdue : dueRows st now limit = [r1, r2, r3] := by
    unfold dueRows
    rw [hsched, List.filter_cons_of_pos (by simpa using hdue1),
      List.filter_cons_of_pos (by simpa using hdue2),
      List.filter_cons_of_pos (by simpa using hdue3), List.filter_nil]
    exact List.take_of_length_le (by simpa using hlim)
  have hn1 : findExistingSent st.events r1.user_id r1.email_type = none := by
    rw [hev]; rfl
  have hstep1 := processScheduledStep_success deliver now (⟨0, []⟩, st) r1 prof1 a1 m1
    hp1 hpe1 hn1 hd1
  unfold processScheduledEmails
  rw [hdue]
  simp only [List.foldl_cons, List.foldl_nil, hstep1]
  rw [processScheduledStep_noProfile deliver now _ r2 (by simpa using hp2)]
  rw [processScheduledStep_success deliver now _ r3 prof3 a3 m3 (by simpa using hp3)
    hpe3 ?_ hd3]
  · refine ⟨rfl, rfl, ?_⟩
    simp
  · show findExistingSent (st.events ++ [⟨r1.user_id, r1.email_type, "sent", some m1, now⟩])
      r3.user_id r3.email_type = none
    rw [hev, List.nil_append]
    unfold findExistingSent
    rcases hne with h | h
    · have hb : (r1.user_id == r3.user_id) = false := beq_eq_false_iff_ne.mpr (Ne.symm h)
      simp [List.find?, hb]
    · have hb : (r1.email_type == r3.email_type) = false :=
        beq_eq_false_iff_ne.mpr (Ne.symm h)
      simp [List.find?, hb]

/-- Witness for `processScheduledEmails_batch_isolation`: three concrete due
rows, profiles for the first and third users only. -/
theorem processScheduledEmails_batch_isolation_witness :
    (processScheduledEmails (fun _ => some "mid") 10 50
        ⟨[], [⟨1, "u1", "nurture_day3", 0, []⟩, ⟨2, "u2", "welcome", 0, []⟩,
            ⟨3, "u3", "welcome", 0, []⟩],
          [⟨"u1", some "u1@x.com", "A", 0⟩, ⟨"u3", some "u3@x.com", "C", 0⟩],
          [], [], []⟩).1.processed = 2 ∧
      (processScheduledEmails (fun _ => some "mid") 10 50
          ⟨[], [⟨1, "u1", "nurture_day3", 0, []⟩, ⟨2, "u2", "welcome", 0, []⟩,
              ⟨3, "u3", "welcome", 0, []⟩],
            [⟨"u1", some "u1@x.com", "A", 0⟩, ⟨"u3", some "u3@x.com", "C", 0⟩],
            [], [], []⟩).1.errors = [2] ∧
      (processScheduledEmails (fun _ => some "mid") 10 50
          ⟨[], [⟨1, "u1", "nurture_day3", 0, []⟩, ⟨2, "u2", "welcome", 0, []⟩,
              ⟨3, "u3", "welcome", 0, []⟩],
            [⟨"u1", some "u1@x.com", "A", 0⟩, ⟨"u3", some "u3@x.com", "C", 0⟩],
            [], [], []⟩).2.deliveryLog = [] ++ ["u1", "u3"] :=
  processScheduledEmails_batch_isolation (fun _ => some "mid") 10 50
    ⟨[], [⟨1, "u1", "nurture_day3", 0, []⟩, ⟨2, "u2", "welcome", 0, []⟩,
        ⟨3, "u3", "welcome", 0, []⟩],
      [⟨"u1", some "u1@x.com", "A", 0⟩, ⟨"u3", some "u3@x.com", "C", 0⟩],
      [], [], []⟩
    ⟨1, "u1", "nurture_day3", 0, []⟩ ⟨2, "u2", "welcome", 0, []⟩
    ⟨3, "u3", "welcome", 0, []⟩
    ⟨"u1", some "u1@x.com", "A", 0⟩ ⟨"u3", some "u3@x.com", "C", 0⟩
    "u1@x.com" "u3@x.com" "mid" "mid"
    rfl (by decide) (by decide) (by decide) (by decide)
    rfl rfl rfl rfl rfl rfl rfl rfl
    (Or.inl (by decide))

/-- Whatever `sendEmail` does, it either leaves the state untouched
(idempotent short-circuit) or logs exactly one delivery to the given user and
appends exactly one event. -/
theorem sendEmail_state_shape (deliver : String → Option String) (now : Int)
    (st : EmailSystemState) (uid addr etype : String) (p : List (String × String)) :
    ((sendEmail deliver now st uid addr etype p).2.deliveryLog = st.deliveryLog ∧
        (sendEmail deliver now st uid addr etype p).2.events = st.events) ∨
      ((sendEmail deliver now st uid addr etype p).2.deliveryLog = st.deliveryLog ++ [uid] ∧
        ∃ ev, (sendEmail deliver now st uid addr etype p).2.events = st.events ++ [ev]) := by
  unfold sendEmail
  split
  · exact Or.inl ⟨rfl, rfl⟩
  · split
    · exact Or.inr ⟨rfl, _, rfl⟩
    · exact Or.inr ⟨rfl, _, rfl⟩

/-- One re-engagement step never decreases the skip count, adds at most one
delivery-log entry — for the user it handles — and only appends to the Event
Log. -/
theorem processReengageStep_shape (deliver : String → Option String) (now window : Int)
    (acc : ReengageReport × EmailSystemState) (v : Profile) :
    acc.1.skipped ≤ (processReengageStep deliver now window acc v).1.skipped ∧
      ((processReengageStep deliver now window acc v).2.deliveryLog = acc.2.deliveryLog ∨
        (processReengageStep deliver now window acc v).2.deliveryLog
          = acc.2.deliveryLog ++ [v.id]) ∧
      (∃ extra, (processReengageStep deliver now window acc v).2.events
        = acc.2.events ++ extra) := by
  unfold processReengageStep
  split
  · exact ⟨by simp, Or.inl rfl, [], by simp⟩
  · split
    · exact ⟨by simp, Or.inl rfl, [], by simp⟩
    · next addr heq =>
      rcases sendEmail_state_shape deliver now acc.2 v.id addr REENGAGE_EMAIL_TYPE
          [("firstName", v.first_name)] with ⟨hlog, hevs⟩ | ⟨hlog, ev, hevs⟩ <;>
        rcases hsend : (sendEmail deliver now acc.2 v.id addr REENGAGE_EMAIL_TYPE
          [("firstName", v.first_name)]).1 with e | e
      · simp only [hsend]
        exact ⟨by simp, Or.inl hlog, [], by simpa using hevs⟩
      · simp only [hsend]
        exact ⟨by simp, Or.inl hlog, [], by simpa using hevs⟩
      · simp only [hsend]
        exact ⟨by simp, Or.inr hlog, [ev], hevs⟩
      · simp only [hsend]
        exact ⟨by simp, Or.inr hlog, [ev], hevs⟩

/-- An existing throttle hit survives any append to the Event Log. -/
theorem recentlyReengaged_append (events extra : List EmailEvent) (uid : String)
    (now window : Int) (h : recentlyReengaged events uid now window = true) :
    recentlyReengaged (events ++ extra) uid now window = true := by
  unfold recentlyReengaged at h ⊢
  rw [List.any_append, h, Bool.true_or]

/-- Folding the re-engagement step over users none of whom carries the target
id leaves the target's delivery count alone and never lowers the skip
count. -/
theorem reengage_fold_no_target (deliver : String → Option String) (now window : Int)
    (uid : String) :
    ∀ (us : List Profile) (acc : ReengageReport × EmailSystemState),
      (∀ v ∈ us, v.id ≠ uid) →
      ((us.foldl (processReengageStep deliver now window) acc).2.deliveryLog.count uid
          = acc.2.deliveryLog.count uid) ∧
        acc.1.skipped ≤ (us.foldl (processReengageStep deliver now window) acc).1.skipped := by
  intro us
  induction us with
  | nil => exact fun acc _ => ⟨rfl, le_refl _⟩
  | cons v rest ih =>
    intro acc hv
    have hshape := processReengageStep_shape deliver now window acc v
    have hrec := ih (processReengageStep deliver now window acc v)
      (fun w hw => hv w (List.mem_cons_of_mem _ hw))
    simp only [List.foldl_cons]
    refine ⟨?_, le_trans hshape.1 hrec.2⟩
    rw [hrec.1]
    rcases hshape.2.1 with h | h
    · rw [h]
    · rw [h, List.count_append]
      have hb : (v.id == uid) = false :=
        beq_eq_false_iff_ne.mpr (hv v (List.mem_cons_self _ _))
      simp [List.count_cons, hb]

/-- Core induction for the throttling claim: if a target user (appearing once
in the batch, ids being deduplicated) is already throttled by the current
Event Log, the fold records at least one extra skip and never logs a delivery
for that user. -/
theorem reengage_fold_throttled (deliver : String → Option String) (now window : Int)
    (u : Profile) :
    ∀ (us : List Profile) (acc : ReengageReport × EmailSystemState),
      u ∈ us → (us.map Profile.id).Nodup →
      recentlyReengaged acc.2.events u.id now window = true →
      acc.1.skipped + 1
          ≤ (us.foldl (processReengageStep deliver now window) acc).1.skipped ∧
        (us.foldl (processReengageStep deliver now window) acc).2.deliveryLog.count u.id
          = acc.2.deliveryLog.count u.id := by
  intro us
  induction us with
  | nil => intro acc hu; cases hu
  | cons v rest ih =>
    intro acc hu hnd hth
    simp only [List.map_cons, List.nodup_cons, List.mem_map, not_exists] at hnd
    simp only [List.foldl_cons]
    rcases List.mem_cons.mp hu with rfl | hu'
    · have hstep : processReengageStep deliver now window acc u
          = (⟨acc.1.processed + 1, acc.1.sent, acc.1.skipped + 1⟩, acc.2) := by
        unfold processReengageStep
        rw [if_pos hth]
      rw [hstep]
      have hrest : ∀ w ∈ rest, w.id ≠ u.id := fun w hw heq => hnd.1 w ⟨hw, heq⟩
      have h := reengage_fold_no_target deliver now window u.id rest
        (⟨acc.1.processed + 1, acc.1.sent, acc.1.skipped + 1⟩, acc.2) hrest
      exact ⟨h.2, h.1⟩
    · have hvid : v.id ≠ u.id := by
        intro heq
        exact hnd.1 u ⟨hu', heq.symm⟩
      have hshape := processReengageStep_shape deliver now window acc v
      obtain ⟨extra, hex⟩ := hshape.2.2
      have hth' : recentlyReengaged
          (processReengageStep deliver now window acc v).2.events u.id now window
          = true := by
        rw [hex]
        exact recentlyReengaged_append _ _ _ _ _ hth
      have hrec := ih (processReengageStep deliver now window acc v) hu' hnd.2 hth'
      refine ⟨le_trans (by omega) hrec.1, ?_⟩
      rw [hrec.2]
      rcases hshape.2.1 with h | h
      · rw [h]
      · rw [h, List.count_append]
        have hb : (v.id == u.id) = false := beq_eq_false_iff_ne.mpr hvid
        simp [List.count_cons, hb]

/-- Every member of the de-duplicated list comes from the original list. -/
theorem dedupById_subset : ∀ (l : List Profile), ∀ x ∈ dedupById l, x ∈ l := by
  intro l
  induction l using dedupById.induct with
  | case1 => intro x hx; rw [dedupById] at hx; cases hx
  | case2 u us ih =>
    intro x hx
    rw [dedupById] at hx
    rcases List.mem_cons.mp hx with rfl | hx
    · exact List.mem_cons_self _ _
    · exact List.mem_cons_of_mem _ (List.mem_filter.mp (ih x hx)).1

/-- De-duplication by id leaves pairwise-distinct ids. -/
theorem dedupById_id_nodup : ∀ l : List Profile, ((dedupById l).map Profile.id).Nodup := by
  intro l
  induction l using dedupById.induct with
  | case1 => simp [dedupById]
  | case2 u us ih =>
    rw [dedupById]
    simp only [List.map_cons, List.nodup_cons, List.mem_map, not_exists]
    refine ⟨?_, ih⟩
    intro v hv
    have hvf := dedupById_subset _ v hv.1
    have hne := (List.mem_filter.mp hvf).2
    rw [hv.2] at hne
    simp at hne

/-- C8: re-engagement throttling: a user in the eligible inactive batch who
already has a `re_engagement` event inside the throttle window is counted as
skipped by `processReengageEmails`, and the Delivery Client is never invoked
for that user during the run (the delivery log's count for that user id is
unchanged). -/
theorem processReengageEmails_throttles (deliver : String → Option String)
    (now threshold window : Int) (st : EmailSystemState) (u : Profile)
    (hu : u ∈ eligibleReengageUsers st now threshold)
    (hth : recentlyReengaged st.events u.id now window = true) :
    1 ≤ (processReengageEmails deliver now threshold window st).1.skipped ∧
      (processReengageEmails deliver now threshold window st).2.deliveryLog.count u.id
        = st.deliveryLog.count u.id := by
  have h := reengage_fold_throttled deliver now window u
    (eligibleReengageUsers st now threshold) (⟨0, 0, 0⟩, st) hu
    (dedupById_id_nodup _) hth
  exact ⟨h.1, h.2⟩

/-- Witness for `processReengageEmails_throttles`: one inactive user with a
recent re-engagement event. -/
theorem processReengageEmails_throttles_witness :
    1 ≤ (processReengageEmails (fun _ => some "mid") 100 10 50
        ⟨[⟨"u1", "re_engagement", "sent", some "m0", 99⟩], [],
          [⟨"u1", some "u1@x.com", "A", 0⟩], [⟨"u1", 0⟩], [], []⟩).1.skipped ∧
      (processReengageEmails (fun _ => some "mid") 100 10 50
          ⟨[⟨"u1", "re_engagement", "sent", some "m0", 99⟩], [],
            [⟨"u1", some "u1@x.com", "A", 0⟩], [⟨"u1", 0⟩], [], []⟩).2.deliveryLog.count
          "u1"
        = (⟨[⟨"u1", "re_engagement", "sent", some "m0", 99⟩], [],
            [⟨"u1", some "u1@x.com", "A", 0⟩], [⟨"u1", 0⟩], [],
            []⟩ : EmailSystemState).deliveryLog.count "u1" :=
  processReengageEmails_throttles (fun _ => some "mid") 100 10 50
    ⟨[⟨"u1", "re_engagement", "sent", some "m0", 99⟩], [],
      [⟨"u1", some "u1@x.com", "A", 0⟩], [⟨"u1", 0⟩], [], []⟩
    ⟨"u1", some "u1@x.com", "A", 0⟩
    (by simp [eligibleReengageUsers, dedupById])
    (by simp [recentlyReengaged, REENGAGE_EMAIL_TYPE])

end OrchestratorTheorems

section DraftTheorems

/-- Removing a key makes a later lookup of that key miss. -/
theorem getItem_removeItem (store : SessionStorage) (k : String) :
    getItem (removeItem store k) k = none := by
  unfold getItem removeItem
  rw [List.find?_eq_none.mpr]
  · rfl
  · intro p hp
    have h := (List.mem_filter.mp hp).2
    simpa using h

/-- Setting a key makes a later lookup of that key return the new value. -/
theorem getItem_setItem (store : SessionStorage) (k v : String) :
    getItem (setItem store k v) k = some v := by
  unfold getItem setItem
  rw [List.find?_append, List.find?_eq_none.mpr]
  · simp
  · intro p hp
    have h := (List.mem_filter.mp hp).2
    simpa using h

/-- C10 counterexample: an empty string stored under the draft key is not
valid JSON (`JSON.parse('')` throws), yet `loadFromSessionStorage` treats it
as falsy, returns `null` and leaves the entry in place — it is not removed
as the claim states. -/
theorem loadDraft_empty_string_not_removed :
    (loadFromSessionStorage (fun _ => none) [("availabilityDraft", "")]
        "availabilityDraft").1 = none ∧
      (loadFromSessionStorage (fun _ => none) [("availabilityDraft", "")]
          "availabilityDraft").2 = [("availabilityDraft", "")] ∧
      getItem (loadFromSessionStorage (fun _ => none) [("availabilityDraft", "")]
          "availabilityDraft").2 "availabilityDraft" = some "" :=
  ⟨rfl, rfl, rfl⟩

/-- C10 (amended): for every stored value under the draft key that is
non-empty and not valid JSON, `loadFromSessionStorage` returns `null` and
removes the corrupted entry (an empty stored value is treated as no draft and
returned as `null` without removal); and every draft the save path writes is
the serialization of a record carrying `timestamp = Date.now()` and schema
version `'2.0'` — whenever a write happens, that record is what sits under
the key. -/
theorem loadDraft_corruption_recovery (decode : String → Option DraftRecord)
    (store : SessionStorage) (draftKey raw : String)
    (hget : getItem store draftKey = some raw) (hne : raw ≠ "")
    (hdec : decode raw = none) :
    loadFromSessionStorage decode store draftKey = (none, removeItem store draftKey) ∧
      getItem (loadFromSessionStorage decode store draftKey).2 draftKey = none ∧
      (∀ (encode : DraftRecord → String) (now : Int) (f q r : Bool)
        (data : List (String × String)),
        saveToSessionStorage encode now f q r store draftKey data = store ∨
          saveToSessionStorage encode now f q r store draftKey data = [] ∨
          getItem (saveToSessionStorage encode now f q r store draftKey data) draftKey
            = some (encode ⟨data, now, "2.0"⟩)) := by
  have hload : loadFromSessionStorage decode store draftKey
      = (none, removeItem store draftKey) := by
    simp only [loadFromSessionStorage, hget]
    rw [if_neg hne, hdec]
  refine ⟨hload, ?_, ?_⟩
  · rw [hload]
    exact getItem_removeItem store draftKey
  · intro encode now f q r data
    unfold saveToSessionStorage
    cases f with
    | false =>
      right; right
      simpa [mkDraftRecord] using getItem_setItem store draftKey (encode ⟨data, now, "2.0"⟩)
    | true =>
      cases q with
      | false => left; rfl
      | true =>
        cases r with
        | false =>
          right; right
          simpa [mkDraftRecord] using getItem_setItem [] draftKey (encode ⟨data, now, "2.0"⟩)
        | true => right; left; rfl

/-- Witness for `loadDraft_corruption_recovery`: a concrete corrupted
non-empty value. -/
theorem loadDraft_corruption_recovery_witness :
    loadFromSessionStorage (fun _ => none) [("availabilityDraft", "not-json")]
        "availabilityDraft"
      = (none, removeItem [("availabilityDraft", "not-json")] "availabilityDraft") ∧
      getItem (loadFromSessionStorage (fun _ => none)
          [("availabilityDraft", "not-json")] "availabilityDraft").2 "availabilityDraft"
        = none ∧
      (∀ (encode : DraftRecord → String) (now : Int) (f q r : Bool)
        (data : List (String × String)),
        saveToSessionStorage encode now f q r [("availabilityDraft", "not-json")]
            "availabilityDraft" data = [("availabilityDraft", "not-json")] ∨
          saveToSessionStorage encode now f q r [("availabilityDraft", "not-json")]
            "availabilityDraft" data = [] ∨
          getItem (saveToSessionStorage encode now f q r
              [("availabilityDraft", "not-json")] "availabilityDraft" data)
              "availabilityDraft"
            = some (encode ⟨data, now, "2.0"⟩)) :=
  loadDraft_corruption_recovery (fun _ => none) [("availabilityDraft", "not-json")]
    "availabilityDraft" "not-json" rfl (by decide) rfl

end DraftTheorems

end ShareSkippy
